import Mathlib

/-!
Shallow embedding of the go-service Runner core (src/runner.go) and the
parts of its data model the runner code depends on.  Pure data is embedded
directly; the Go mutation of records held in the registry map is embedded
as explicit state passing over an association list keyed by the descriptor
identity.  Signals are identified by numeric tokens supplied by the caller
(Go allocates a fresh Signal object per Start/Halt/Shutdown call); a
notification is modelled as the pair of the target Signal token and the
Option-valued error delivered to it.  The branch of the select between a
Signal and the outer context cancellation is an explicit Boolean input,
and the completions delivered asynchronously by the workers are an explicit
list input, so every operation is a total function of its schedule.
-/

namespace GoService

/-- Lifecycle states of a service (src/runner.go, state model; the State
enumeration itself lives in a file not under src/, but its constructor
names appear throughout src/runner.go). -/
inductive State where
  | Halted
  | Starting
  | Started
  | Halting
  | Ended
deriving DecidableEq, Repr

/-- Stage of a service: before or after readiness (src/runner.go related
declarations; constructors StageReady and StageRun). -/
inductive Stage where
  | StageReady
  | StageRun
deriving DecidableEq, Repr

/-- Runner states (src/runner.go uses RunnerEnabled, RunnerSuspended,
RunnerShutdown). -/
inductive RunnerState where
  | RunnerEnabled
  | RunnerSuspended
  | RunnerShutdown
deriving DecidableEq, Repr

/-- Per-service errors that can occupy a Signal slot or an aggregate.
alreadyRunning is the error written "service already running" in
src/runner.go line 191; stateErr stands for the illegal-transition
StateError; runErr n is an abstract error returned by a Runnable's Run. -/
inductive Err where
  | alreadyRunning
  | stateErr
  | serviceEnded
  | runErr (n : Nat)
deriving DecidableEq, Repr

/-- Call-level results of Start, Halt and Shutdown: nil is none; notEnabled
is the error written "runner is not enabled"; ctxCanceled is the error of
the outer context; aggregate es is the serviceErrors value built at
src/runner.go lines 222-224 and 266-268. -/
inductive GoErr where
  | notEnabled
  | ctxCanceled
  | aggregate (es : List Err)
deriving DecidableEq, Repr

/-- Modelled from the spec: the State transition DAG (state.go is not under
src/).  Allowed transitions are Halted to Starting, Starting to Started,
Starting to Halting, Started to Halting, Halting to Ended, and Starting to
Ended; any other installation attempt is an error. -/
def State.canSet : State → State → Bool
  | .Halted, .Starting => true
  | .Starting, .Started => true
  | .Starting, .Halting => true
  | .Started, .Halting => true
  | .Halting, .Ended => true
  | .Starting, .Ended => true
  | _, _ => false

/-- Modelled from the spec: state.set (state.go is not under src/) installs
the target state if the transition is allowed and returns a StateError
otherwise, leaving the state unchanged. -/
def State.set (cur next : State) : Option Err × State :=
  if cur.canSet next then (none, next) else (some .stateErr, cur)

/-- A service descriptor, identified by its identity (Go uses the pointer
as the registry key) together with whether its Runnable field is non-nil
(src/runner.go line 184 checks svc.Runnable == nil). -/
structure Service where
  id : Nat
  hasRunnable : Bool
deriving DecidableEq, Repr

/-- The Runner-owned per-service record (runnerservice.go is not under
src/; its fields are reconstructed from their uses in src/runner.go and
the spec: state, stage, readyCalled, the done channel, the waiter set and
the ready Signal passed in by Start). -/
structure RunnerService where
  id : Nat
  svcId : Nat
  state : State
  stage : Stage
  readyCalled : Bool
  doneClosed : Bool
  waiters : List Nat
  ready : Nat
deriving DecidableEq, Repr

/-- Modelled from the spec: newRunnerService (runnerservice.go is not under
src/) builds a fresh record for a descriptor: implicit initial state
Halted, stage latched to StageReady, no waiters, holding the ready Signal
given by Start (src/runner.go line 196). -/
def newRunnerService (id svcId readySig : Nat) : RunnerService :=
  { id := id, svcId := svcId, state := .Halted, stage := .StageReady,
    readyCalled := false, doneClosed := false, waiters := [], ready := readySig }

/-- Modelled from the spec: runnerService.starting (runnerservice.go is not
under src/) installs the Starting state via the transition check
(src/runner.go line 199 calls it on a freshly created record). -/
def RunnerService.starting (rs : RunnerService) : Option Err × RunnerService :=
  match rs.state.set .Starting with
  | (none, st) => (none, { rs with state := st })
  | (some e, _) => (some e, rs)

/-- Modelled from the spec: runnerService.halting (runnerservice.go is not
under src/) transitions the record to Halting, closes its done channel
(at most once) and registers the given Signal as a waiter; per the spec
(section 4.3) it reports no error for a registered service, and Shutdown
(src/runner.go line 142) panics if it ever did. -/
def RunnerService.halting (rs : RunnerService) (sig : Nat) : RunnerService :=
  { rs with state := .Halting, doneClosed := true, waiters := rs.waiters ++ [sig] }

/-- Modelled from the spec: runnerService.setReady (runnerservice.go is not
under src/) delivers the given error to the readiness Signal held by the
record; the returned pair is the notification (Signal token, error). -/
def RunnerService.setReady (rs : RunnerService) (err : Option Err) :
    RunnerService × (Nat × Option Err) :=
  ({ rs with readyCalled := true }, (rs.ready, err))

/-- The Runner (src/runner.go lines 79-91): registry map from descriptor
identity to record, monotonic ID counter, and RunnerState.  The callback
fields are omitted: callbacks run on dedicated workers and carry no state
the claims quantify over. -/
structure Runner where
  nextID : Nat
  services : List (Nat × RunnerService)
  state : RunnerState
deriving DecidableEq, Repr

/-- NewRunner (src/runner.go lines 95-103): empty registry; the zero value
of RunnerState in Go is RunnerEnabled. -/
def NewRunner : Runner :=
  { nextID := 0, services := [], state := .RunnerEnabled }

/-- Registry lookup, mirroring the Go map read rn.services[svc]. -/
def regLookup (k : Nat) (l : List (Nat × RunnerService)) : Option RunnerService :=
  List.lookup k l

/-- Registry deletion, mirroring delete(rn.services, rsvc.service) at
src/runner.go line 334. -/
def regErase (k : Nat) (l : List (Nat × RunnerService)) : List (Nat × RunnerService) :=
  l.filter (fun p => !(p.1 == k))

/-- In-place mutation of the record stored under a key, mirroring a Go
method call on the pointer held in the map. -/
def regUpdate (k : Nat) (f : RunnerService → RunnerService)
    (l : List (Nat × RunnerService)) : List (Nat × RunnerService) :=
  l.map (fun p => if p.1 = k then (p.1, f p.2) else p)

/-- The error a waiter (halt Signal) receives on the end path: nil when the
stage is still StageReady, the Run error otherwise (src/runner.go lines
353-357: herr is err unless rsvc.stage == StageReady). -/
def herrOf (stage : Stage) (err : Option Err) : Option Err :=
  match stage with
  | .StageReady => none
  | .StageRun => err

/-- Result of the end path: the Runner after removal, the record after its
final mutation, the notification delivered to the readiness Signal (if
any), and the notifications delivered to the halt waiters, in order. -/
structure EndedResult where
  runner : Runner
  rsvc : RunnerService
  readyNote : Option (Nat × Option Err)
  waiterNotes : List (Nat × Option Err)
deriving DecidableEq, Repr

/-- runner.ended (src/runner.go lines 331-375): under the registry lock,
delete the record from the registry, install Ended, clear done; if the
stage is still StageReady deliver the Run error to the readiness Signal
and null the halt error, then raise the end callbacks and deliver the halt
error to every waiter, clearing the waiter set. -/
def Runner.ended (rn : Runner) (rsvc : RunnerService) (err : Option Err) : EndedResult :=
  let services1 := regErase rsvc.svcId rn.services
  let rsvc1 := { rsvc with state := .Ended, doneClosed := true }
  let (rsvc2, readyNote) :=
    if rsvc1.stage = Stage.StageReady then
      let (r, note) := rsvc1.setReady err
      (r, some note)
    else (rsvc1, none)
  let herr := herrOf rsvc.stage err
  let notes := rsvc2.waiters.map (fun w => (w, herr))
  let rsvc3 := { rsvc2 with readyCalled := false, waiters := [] }
  { runner := { rn with services := services1 }, rsvc := rsvc3,
    readyNote := readyNote, waiterNotes := notes }

/-- Events on the end path, used to state ordering properties: registry
lock acquisition and release, registry deletion, the Ended transition, a
Signal Done invocation, and the end-callback dispatch. -/
inductive Event where
  | lockReg
  | unlockReg
  | deleteReg (k : Nat)
  | setEnded
  | notifySig (sig : Nat) (e : Option Err)
  | raiseEnd
deriving DecidableEq, Repr

/-- Whether an event is a Signal Done invocation. -/
def Event.isNotify : Event → Bool
  | .notifySig _ _ => true
  | _ => false

/-- Whether an event is the registry deletion for key k. -/
def Event.isDelete (k : Nat) : Event → Bool
  | .deleteReg j => j == k
  | _ => false

/-- The statement order of runner.ended (src/runner.go lines 331-375):
rn.mu.Lock; delete from the registry; setState(Ended); setReady when the
stage is still StageReady; raiseOnEnded; Done on each waiter; rn.mu.Unlock.
The record's own lock is omitted; the events track the registry lock. -/
def endedTrace (rsvc : RunnerService) (err : Option Err) : List Event :=
  [Event.lockReg, Event.deleteReg rsvc.svcId, Event.setEnded]
    ++ (if rsvc.stage = Stage.StageReady then [Event.notifySig rsvc.ready err] else [])
    ++ [Event.raiseEnd]
    ++ rsvc.waiters.map (fun w => Event.notifySig w (herrOf rsvc.stage err))
    ++ [Event.unlockReg]

/-- For each Signal Done invocation in a trace, whether the registry lock
was held at that point (scanning left to right with the given initial lock
state). -/
def notifyLockStatus : List Event → Bool → List Bool
  | [], _ => []
  | e :: rest, held =>
      match e with
      | .lockReg => notifyLockStatus rest true
      | .unlockReg => notifyLockStatus rest false
      | .notifySig _ _ => held :: notifyLockStatus rest held
      | _ => notifyLockStatus rest held

/-- True when some Signal Done invocation in the trace happens while the
registry lock is held. -/
def notifiesUnderLock (tr : List Event) : Bool :=
  (notifyLockStatus tr false).any id

/-- Accumulator of the registration loop of Start (src/runner.go lines
183-211): the evolving Runner, the slot completions delivered immediately
to the ready Signal, and the descriptor ids whose worker was spawned
(their completions arrive later from Ready or from the end path). -/
structure StartAcc where
  rn : Runner
  slots : List (Option Err)
  launched : List Nat
deriving DecidableEq, Repr

/-- One iteration of the Start registration loop (src/runner.go lines
183-211): a nil descriptor or nil Runnable completes its slot with nil; an
already registered descriptor completes its slot with the
service-already-running error and leaves the record alone; otherwise a
fresh record is created under the next ID, installed, transitioned to
Starting and its worker spawned (an error from starting would complete the
slot instead of spawning). -/
def startStep (sig : Nat) (acc : StartAcc) (svc : Option Service) : StartAcc :=
  match svc with
  | none => { acc with slots := acc.slots ++ [none] }
  | some s =>
    if s.hasRunnable = false then
      { acc with slots := acc.slots ++ [none] }
    else
      match regLookup s.id acc.rn.services with
      | some _ => { acc with slots := acc.slots ++ [some Err.alreadyRunning] }
      | none =>
        let nid := acc.rn.nextID + 1
        let rs0 := newRunnerService nid s.id sig
        match rs0.starting with
        | (none, rs1) =>
            { rn := { acc.rn with nextID := nid, services := (s.id, rs1) :: acc.rn.services },
              slots := acc.slots, launched := acc.launched ++ [s.id] }
        | (some e, rs1) =>
            { rn := { acc.rn with nextID := nid, services := (s.id, rs1) :: acc.rn.services },
              slots := acc.slots ++ [some e], launched := acc.launched }

/-- The whole registration phase of Start, performed under the registry
lock. -/
def startReg (rn : Runner) (sig : Nat) (svcs : List (Option Service)) : StartAcc :=
  svcs.foldl (startStep sig) { rn := rn, slots := [], launched := [] }

/-- The aggregate a Signal consumer sees: the non-nil slot completions
(the spec: the aggregated error is nil iff all completions reported nil;
Errors on a serviceErrors value returns the collected list). -/
def signalErrs (completions : List (Option Err)) : List Err :=
  completions.filterMap id

/-- runner.Start (src/runner.go lines 165-230).  eventual are the slot
completions delivered by the launched workers (via Ready or the end path)
by the time the Signal is read; cancelled selects the outer-cancellation
branch of the final select.  Returns the call result and the Runner. -/
def Runner.Start (rn : Runner) (sig : Nat) (svcs : List (Option Service))
    (eventual : List (Option Err)) (cancelled : Bool) : Option GoErr × Runner :=
  if svcs.length = 0 then (none, rn)
  else if rn.state ≠ RunnerState.RunnerEnabled then (some .notEnabled, rn)
  else
    let acc := startReg rn sig svcs
    if cancelled then (some .ctxCanceled, acc.rn)
    else
      let errs := signalErrs (acc.slots ++ eventual)
      if errs = [] then (none, acc.rn) else (some (.aggregate errs), acc.rn)

/-- Accumulator of the Halt marking loop (src/runner.go lines 242-256). -/
structure HaltAcc where
  rn : Runner
  slots : List (Option Err)
  marked : List Nat
deriving DecidableEq, Repr

/-- One iteration of the Halt loop (src/runner.go lines 243-255): an
unregistered descriptor completes its slot with nil (idempotent halt); a
registered one is transitioned to Halting with the Signal attached, and
its slot will be completed by the end path. -/
def haltStep (sig : Nat) (acc : HaltAcc) (svcId : Nat) : HaltAcc :=
  match regLookup svcId acc.rn.services with
  | none => { acc with slots := acc.slots ++ [none] }
  | some _ =>
      { acc with
          rn := { acc.rn with services := regUpdate svcId (fun rs => rs.halting sig) acc.rn.services },
          marked := acc.marked ++ [svcId] }

/-- The whole marking phase of Halt, performed under the registry lock. -/
def haltMark (rn : Runner) (sig : Nat) (svcIds : List Nat) : HaltAcc :=
  svcIds.foldl (haltStep sig) { rn := rn, slots := [], marked := [] }

/-- runner.Halt (src/runner.go lines 232-274), with the same schedule
inputs as Start. -/
def Runner.Halt (rn : Runner) (sig : Nat) (svcIds : List Nat)
    (eventual : List (Option Err)) (cancelled : Bool) : Option GoErr × Runner :=
  if svcIds.length = 0 then (none, rn)
  else
    let acc := haltMark rn sig svcIds
    if cancelled then (some .ctxCanceled, acc.rn)
    else
      let errs := signalErrs (acc.slots ++ eventual)
      if errs = [] then (none, acc.rn) else (some (.aggregate errs), acc.rn)

/-- The locked phase of runner.Shutdown (src/runner.go lines 127-149):
reject unless Enabled or Suspended, install RunnerShutdown, and transition
every registered service to Halting with the drain Signal attached. -/
def shutdownMark (rn : Runner) (sig : Nat) : Option GoErr × Runner :=
  if rn.state = RunnerState.RunnerEnabled ∨ rn.state = RunnerState.RunnerSuspended then
    (none,
      { rn with state := .RunnerShutdown,
                services := rn.services.map (fun p => (p.1, p.2.halting sig)) })
  else (some .notEnabled, rn)

/-- runner.Shutdown (src/runner.go lines 124-163), with the same schedule
inputs as Start. -/
def Runner.Shutdown (rn : Runner) (sig : Nat)
    (eventual : List (Option Err)) (cancelled : Bool) : Option GoErr × Runner :=
  match shutdownMark rn sig with
  | (some e, rn1) => (some e, rn1)
  | (none, rn1) =>
      if cancelled then (some .ctxCanceled, rn1)
      else
        let errs := signalErrs eventual
        if errs = [] then (none, rn1) else (some (.aggregate errs), rn1)

/-- runner.Enable (src/runner.go lines 105-110): unconditionally installs
RunnerEnabled and returns nil. -/
def Runner.Enable (rn : Runner) : Option GoErr × Runner :=
  (none, { rn with state := .RunnerEnabled })

/-- runner.Suspend (src/runner.go lines 112-122). -/
def Runner.Suspend (rn : Runner) : Option GoErr × Runner :=
  if rn.state = RunnerState.RunnerEnabled then (none, { rn with state := .RunnerSuspended })
  else (some .notEnabled, rn)

/-- runner.State (src/runner.go lines 318-329): the registered record's
state, or Halted when the descriptor is not registered. -/
def Runner.State (rn : Runner) (svcId : Nat) : State :=
  match regLookup svcId rn.services with
  | some rs => rs.state
  | none => State.Halted

/-- Whether a record is in one of the states a registered service may
occupy (spec section 3, RunnerService invariant 1). -/
def liveState (rs : RunnerService) : Bool :=
  rs.state == State.Starting || rs.state == State.Started || rs.state == State.Halting

/-- The registry invariant of the spec (section 3, RunnerService invariant
1): every registered record is in state Starting, Started or Halting. -/
def RegInv (rn : Runner) : Bool :=
  rn.services.all (fun p => liveState p.2)

/-! Helper lemmas about the registry association list. -/

theorem regLookup_erase_self (k : Nat) (l : List (Nat × RunnerService)) :
    regLookup k (regErase k l) = none := by
  induction l with
  | nil => rfl
  | cons p rest ih =>
      obtain ⟨a, b⟩ := p
      by_cases h : a = k
      · simpa [regErase, List.filter_cons, h] using ih
      · have hb : (a == k) = false := by simp [h]
        have hk : (k == a) = false := by simp [Ne.symm h]
        simpa [regErase, regLookup, List.filter_cons, hb, List.lookup, hk] using ih

theorem regLookup_update (k j : Nat) (f : RunnerService → RunnerService)
    (l : List (Nat × RunnerService)) :
    regLookup j (regUpdate k f l)
      = if j = k then (regLookup j l).map f else regLookup j l := by
  induction l with
  | nil => by_cases h : j = k <;> simp [regUpdate, regLookup, h]
  | cons p rest ih =>
      obtain ⟨a, b⟩ := p
      simp only [regUpdate, regLookup, List.map_cons] at ih ⊢
      by_cases hak : a = k
      · subst hak
        by_cases hja : j = a
        · subst hja
          simp [List.lookup_cons]
        · have h1 : (j == a) = false := by simp [hja]
          simp [List.lookup_cons, h1, hja, ih]
      · by_cases hja : j = a
        · subst hja
          have hjk : j ≠ k := hak
          simp [List.lookup_cons, hak, hjk]
        · have h1 : (j == a) = false := by simp [hja]
          simp [List.lookup_cons, h1, hak, hja, ih]

theorem signalErrs_eq_nil (l : List (Option Err)) :
    signalErrs l = [] ↔ ∀ x ∈ l, x = none := by
  induction l with
  | nil => simp [signalErrs]
  | cons x rest ih =>
      cases x with
      | none => simp [signalErrs, List.filterMap] at ih ⊢
      | some e => simp [signalErrs, List.filterMap]

theorem all_filter_of_all (q f : Nat × RunnerService → Bool)
    (l : List (Nat × RunnerService)) (h : l.all q = true) : (l.filter f).all q = true := by
  simp only [List.all_eq_true] at h ⊢
  intro p hp
  exact h p (List.mem_of_mem_filter hp)

theorem all_regUpdate (k : Nat) (f : RunnerService → RunnerService)
    (q : Nat × RunnerService → Bool) (l : List (Nat × RunnerService))
    (hf : ∀ a b, q (a, f b) = true) (h : l.all q = true) :
    (regUpdate k f l).all q = true := by
  simp only [regUpdate, List.all_eq_true] at h ⊢
  intro p hp
  obtain ⟨r, hr, hrp⟩ := List.mem_map.mp hp
  by_cases hrk : r.1 = k
  · rw [if_pos hrk] at hrp
    rw [← hrp]
    exact hf r.1 r.2
  · rw [if_neg hrk] at hrp
    rw [← hrp]
    exact h r hr

theorem startStep_lookup (sig : Nat) (acc : StartAcc) (svc : Option Service)
    (D : Nat) (rs : RunnerService) (h : regLookup D acc.rn.services = some rs) :
    regLookup D ((startStep sig acc svc).rn.services) = some rs := by
  cases svc with
  | none => simpa [startStep] using h
  | some s =>
      cases hr : s.hasRunnable with
      | false => simpa [startStep, hr] using h
      | true =>
          cases hlk : regLookup s.id acc.rn.services with
          | some rs2 => simpa [startStep, hr, hlk] using h
          | none =>
              have hne : ¬ D = s.id := by
                intro he
                rw [he, hlk] at h
                cases h
              have hb : (D == s.id) = false := by simp [hne]
              simp only [startStep, hr, hlk, newRunnerService, RunnerService.starting,
                State.set, State.canSet]
              simpa [regLookup, List.lookup, hb] using h

theorem startReg_lookup (rn : Runner) (sig : Nat) (svcs : List (Option Service))
    (D : Nat) (rs : RunnerService) (h : regLookup D rn.services = some rs) :
    regLookup D ((startReg rn sig svcs).rn.services) = some rs := by
  suffices h2 : ∀ acc : StartAcc, regLookup D acc.rn.services = some rs →
      regLookup D ((svcs.foldl (startStep sig) acc).rn.services) = some rs from h2 _ h
  induction svcs with
  | nil => intro acc ha; simpa using ha
  | cons svc rest ih => intro acc ha; exact ih _ (startStep_lookup sig acc svc D rs ha)

theorem haltStep_mem (sig : Nat) (acc : HaltAcc) (i D : Nat)
    (h : regLookup D acc.rn.services ≠ none) :
    regLookup D ((haltStep sig acc i).rn.services) ≠ none := by
  cases hlk : regLookup i acc.rn.services with
  | none => simpa [haltStep, hlk] using h
  | some rs =>
      have hs : (haltStep sig acc i).rn.services
          = regUpdate i (fun r => r.halting sig) acc.rn.services := by
        simp [haltStep, hlk]
      rw [hs, regLookup_update]
      by_cases hDi : D = i
      · simp [hDi, hlk]
      · simpa [hDi] using h

theorem haltMark_mem (rn : Runner) (sig : Nat) (ids : List Nat) (D : Nat)
    (h : regLookup D rn.services ≠ none) :
    regLookup D ((haltMark rn sig ids).rn.services) ≠ none := by
  suffices h2 : ∀ acc : HaltAcc, regLookup D acc.rn.services ≠ none →
      regLookup D ((ids.foldl (haltStep sig) acc).rn.services) ≠ none from h2 _ h
  induction ids with
  | nil => intro acc ha; simpa using ha
  | cons i rest ih => intro acc ha; exact ih _ (haltStep_mem sig acc i D ha)

theorem startStep_RegInv (sig : Nat) (acc : StartAcc) (svc : Option Service)
    (h : RegInv acc.rn = true) : RegInv (startStep sig acc svc).rn = true := by
  cases svc with
  | none => simpa [startStep] using h
  | some s =>
      cases hr : s.hasRunnable with
      | false => simpa [startStep, hr] using h
      | true =>
          cases hlk : regLookup s.id acc.rn.services with
          | some rs2 => simpa [startStep, hr, hlk] using h
          | none =>
              simp only [startStep, hr, hlk, newRunnerService, RunnerService.starting,
                State.set, State.canSet]
              simpa [RegInv, List.all_cons, liveState] using h

theorem startReg_RegInv (rn : Runner) (sig : Nat) (svcs : List (Option Service))
    (h : RegInv rn = true) : RegInv (startReg rn sig svcs).rn = true := by
  suffices h2 : ∀ acc : StartAcc, RegInv acc.rn = true →
      RegInv ((svcs.foldl (startStep sig) acc).rn) = true from h2 _ h
  induction svcs with
  | nil => intro acc ha; simpa using ha
  | cons svc rest ih => intro acc ha; exact ih _ (startStep_RegInv sig acc svc ha)

theorem haltStep_RegInv (sig : Nat) (acc : HaltAcc) (i : Nat)
    (h : RegInv acc.rn = true) : RegInv (haltStep sig acc i).rn = true := by
  cases hlk : regLookup i acc.rn.services with
  | none => simpa [haltStep, hlk] using h
  | some rs =>
      have hs : (haltStep sig acc i).rn.services
          = regUpdate i (fun r => r.halting sig) acc.rn.services := by
        simp [haltStep, hlk]
      simp only [RegInv] at h ⊢
      rw [hs]
      exact all_regUpdate _ _ _ _ (fun a b => by simp [RunnerService.halting, liveState]) h

theorem haltMark_RegInv (rn : Runner) (sig : Nat) (ids : List Nat)
    (h : RegInv rn = true) : RegInv (haltMark rn sig ids).rn = true := by
  suffices h2 : ∀ acc : HaltAcc, RegInv acc.rn = true →
      RegInv ((ids.foldl (haltStep sig) acc).rn) = true from h2 _ h
  induction ids with
  | nil => intro acc ha; simpa using ha
  | cons i rest ih => intro acc ha; exact ih _ (haltStep_RegInv sig acc i ha)

theorem all_map_halting (sig : Nat) (l : List (Nat × RunnerService)) :
    (l.map (fun p => (p.1, p.2.halting sig))).all (fun p => liveState p.2) = true := by
  induction l with
  | nil => simp
  | cons p rest ih => simp [RunnerService.halting, liveState, List.all_cons, ih]

theorem notifyLockStatus_map_append (ws : List Nat) (e : Option Err)
    (rest : List Event) (held : Bool) :
    notifyLockStatus (ws.map (fun w => Event.notifySig w e) ++ rest) held
      = List.replicate ws.length held ++ notifyLockStatus rest held := by
  induction ws with
  | nil => simp
  | cons w tail ih => simp [notifyLockStatus, List.replicate, ih]

theorem all_id_replicate_true (n : Nat) : (List.replicate n true).all id = true := by
  induction n with
  | zero => rfl
  | succ m ih => simp [List.replicate, ih]

theorem shutdown_runner_eq (rn : Runner) (sig : Nat) (ev : List (Option Err)) (c : Bool) :
    (Runner.Shutdown rn sig ev c).2 = (shutdownMark rn sig).2 := by
  unfold Runner.Shutdown
  cases hm : shutdownMark rn sig with
  | mk e rn1 =>
      cases e with
      | none =>
          cases c
          · simp only [Bool.false_eq_true, if_false]
            split <;> rfl
          · rfl
      | some ge => rfl

theorem shutdownMark_state (rn : Runner) (sig : Nat) :
    ((shutdownMark rn sig).2).state = RunnerState.RunnerShutdown := by
  cases hst : rn.state <;> simp [shutdownMark, hst]

/-! Concrete fixtures used by witnesses and counterexamples. -/

/-- A record for descriptor 5 in the Halting state at StageRun with one
halt waiter Signal 4, as Start followed by Halt leaves it. -/
def rsW : RunnerService :=
  { id := 1, svcId := 5, state := .Halting, stage := .StageRun, readyCalled := true,
    doneClosed := true, waiters := [4], ready := 3 }

/-- An enabled runner holding rsW under descriptor 5. -/
def rnW : Runner := { nextID := 1, services := [(5, rsW)], state := .RunnerEnabled }

/-- The runner left by the Start registration phase for descriptor 1 on a
fresh runner. -/
def rnStarted1 : Runner := (startReg NewRunner 3 [some ⟨1, true⟩]).rn

/-- The record of descriptor 1 after Halt marked it with waiter Signal 4. -/
def rsHalting1 : RunnerService :=
  (regLookup 1 (haltMark rnStarted1 4 [1]).rn.services).getD (newRunnerService 0 0 0)

/-- The runner left by shutting down a fresh runner. -/
def rnShut : Runner := (Runner.Shutdown NewRunner 0 [] false).2

/-! The claims. -/

/-- C1: for a worker that returns with error e, runner.ended routes e by
stage: if the stage is still StageReady the error is delivered to the
readiness Signal as the start error and every halt waiter is completed
with nil; if the stage is StageRun the error is delivered to all waiters
attached at that moment. -/
theorem ended_routes_error_by_stage (rn : Runner) (rsvc : RunnerService) (e : Err) :
    (Runner.ended rn rsvc (some e)).readyNote
        = (if rsvc.stage = Stage.StageReady then some (rsvc.ready, some e) else none)
      ∧ (Runner.ended rn rsvc (some e)).waiterNotes
        = rsvc.waiters.map (fun w =>
            (w, if rsvc.stage = Stage.StageReady then none else some e)) := by
  cases h : rsvc.stage <;>
    simp [Runner.ended, RunnerService.setReady, herrOf, h]

/-- C2: on the end path the registry removal precedes every Signal
notification (the removal lies in the notification-free prefix of the end
trace), so a Start of the same descriptor issued sequentially after the
end path ran does not see the old record: it is accepted and succeeds. -/
theorem halt_then_start_restart (rn : Runner) (rsvc : RunnerService) (err : Option Err)
    (sig2 : Nat) (h : rn.state = RunnerState.RunnerEnabled) :
    (Event.deleteReg rsvc.svcId
        ∈ (endedTrace rsvc err).takeWhile (fun ev => !ev.isNotify))
      ∧ regLookup rsvc.svcId (Runner.ended rn rsvc err).runner.services = none
      ∧ (Runner.Start (Runner.ended rn rsvc err).runner sig2
            [some ⟨rsvc.svcId, true⟩] [none] false).1 = none := by
  refine ⟨?_, ?_, ?_⟩
  · simp [endedTrace, List.takeWhile_cons, Event.isNotify]
  · simp [Runner.ended]
    exact regLookup_erase_self rsvc.svcId rn.services
  · have hl : regLookup rsvc.svcId (regErase rsvc.svcId rn.services) = none :=
      regLookup_erase_self rsvc.svcId rn.services
    simp [Runner.Start, Runner.ended, h, startReg, startStep, hl, newRunnerService,
      RunnerService.starting, State.set, State.canSet, signalErrs]

/-- Witness for C2 at the concrete enabled runner rnW and record rsW. -/
theorem halt_then_start_restart_witness :
    rnW.state = RunnerState.RunnerEnabled
      ∧ ((Event.deleteReg rsW.svcId
            ∈ (endedTrace rsW (some (Err.runErr 1))).takeWhile (fun ev => !ev.isNotify))
          ∧ regLookup rsW.svcId (Runner.ended rnW rsW (some (Err.runErr 1))).runner.services = none
          ∧ (Runner.Start (Runner.ended rnW rsW (some (Err.runErr 1))).runner 9
                [some ⟨rsW.svcId, true⟩] [none] false).1 = none) :=
  ⟨rfl, halt_then_start_restart rnW rsW (some (Err.runErr 1)) 9 rfl⟩

/-- C3 counterexample: after Shutdown the RunnerState is Shutdown, yet a
Start call carrying an empty service list returns nil rather than the
not-enabled error, so the claim that every subsequent Start call returns
the not-enabled error is false as stated. -/
theorem start_after_shutdown_empty_nil_cex :
    rnShut.state = RunnerState.RunnerShutdown
      ∧ Runner.Start rnShut 0 [] [] false = (none, rnShut) :=
  ⟨rfl, rfl⟩

/-- C3 amended: after any Shutdown call returns, the RunnerState is
Shutdown; every subsequent Start call naming at least one service returns
the not-enabled error and leaves the Runner unchanged; a second Shutdown
also returns the not-enabled error; Enable restores Enabled from any
RunnerState, after which a Start naming at least one service is no longer
rejected as not enabled. -/
theorem shutdown_closure :
    (∀ (rn : Runner) (sig : Nat) (ev : List (Option Err)) (c : Bool),
        ((Runner.Shutdown rn sig ev c).2).state = RunnerState.RunnerShutdown)
      ∧ (∀ (rn : Runner) (sig : Nat) (svcs : List (Option Service))
            (ev : List (Option Err)) (c : Bool),
          rn.state ≠ RunnerState.RunnerEnabled → svcs ≠ [] →
          Runner.Start rn sig svcs ev c = (some GoErr.notEnabled, rn))
      ∧ (∀ (rn : Runner) (sig : Nat) (ev : List (Option Err)) (c : Bool),
          rn.state = RunnerState.RunnerShutdown →
          Runner.Shutdown rn sig ev c = (some GoErr.notEnabled, rn))
      ∧ (∀ rn : Runner, ((Runner.Enable rn).2).state = RunnerState.RunnerEnabled)
      ∧ (∀ (rn : Runner) (sig : Nat) (svcs : List (Option Service))
            (ev : List (Option Err)) (c : Bool),
          svcs ≠ [] →
          (Runner.Start (Runner.Enable rn).2 sig svcs ev c).1 ≠ some GoErr.notEnabled) := by
  refine ⟨?_, ?_, ?_, ?_, ?_⟩
  · intro rn sig ev c
    rw [shutdown_runner_eq]
    exact shutdownMark_state rn sig
  · intro rn sig svcs ev c hs hne
    simp [Runner.Start, List.length_eq_zero, hne, hs]
  · intro rn sig ev c hst
    simp [Runner.Shutdown, shutdownMark, hst]
  · intro rn
    rfl
  · intro rn sig svcs ev c hne
    simp only [Runner.Start, Runner.Enable]
    simp [List.length_eq_zero, hne]
    split
    · simp
    · split <;> simp

/-- Witness for C3 (amended) at concrete inputs built from rnShut. -/
theorem shutdown_closure_witness :
    ((Runner.Shutdown NewRunner 0 [] false).2).state = RunnerState.RunnerShutdown
      ∧ (rnShut.state ≠ RunnerState.RunnerEnabled
          ∧ ([some (Service.mk 1 true)] : List (Option Service)) ≠ []
          ∧ Runner.Start rnShut 0 [some ⟨1, true⟩] [] false = (some GoErr.notEnabled, rnShut))
      ∧ (rnShut.state = RunnerState.RunnerShutdown
          ∧ Runner.Shutdown rnShut 0 [] false = (some GoErr.notEnabled, rnShut))
      ∧ ((Runner.Enable rnShut).2).state = RunnerState.RunnerEnabled
      ∧ (Runner.Start (Runner.Enable rnShut).2 0 [some ⟨1, true⟩] [] false).1
          ≠ some GoErr.notEnabled :=
  ⟨shutdown_closure.1 NewRunner 0 [] false,
   ⟨by decide, by decide,
    shutdown_closure.2.1 rnShut 0 [some ⟨1, true⟩] [] false (by decide) (by decide)⟩,
   ⟨by decide, shutdown_closure.2.2.1 rnShut 0 [] false (by decide)⟩,
   shutdown_closure.2.2.2.1 rnShut,
   shutdown_closure.2.2.2.2 rnShut 0 [some ⟨1, true⟩] [] false (by decide)⟩

/-- C5 counterexample: for the record of a service that was started and
then marked Halting (with one halt waiter), the end path notifies a Signal
while the registry lock is held, so the claim that no waiter is ever
notified while the registry lock is held is false. -/
theorem ended_notifies_under_lock_cex :
    notifiesUnderLock (endedTrace rsHalting1 (some (Err.runErr 0))) = true := by
  decide

/-- C5 amended: on the end path every Signal notification happens while
the registry lock is held; runner.ended releases the lock only after all
waiters have been notified. -/
theorem ended_all_notifies_under_lock (rsvc : RunnerService) (err : Option Err) :
    (notifyLockStatus (endedTrace rsvc err) false).all id = true := by
  cases h : rsvc.stage <;>
    simp [endedTrace, h, notifyLockStatus, notifyLockStatus_map_append,
      List.all_append, all_id_replicate_true]

/-- C10: Start and Halt called with an empty list of services return nil
in every RunnerState, before the RunnerState is examined, leaving the
Runner (registry and RunnerState) unchanged. -/
theorem empty_start_halt_nil (rn : Runner) (sig : Nat) (ev : List (Option Err)) (c : Bool) :
    Runner.Start rn sig [] ev c = (none, rn) ∧ Runner.Halt rn sig [] ev c = (none, rn) :=
  ⟨rfl, rfl⟩

theorem RegInv_Start (rn : Runner) (sig : Nat) (svcs : List (Option Service))
    (ev : List (Option Err)) (c : Bool) (h : RegInv rn = true) :
    RegInv (Runner.Start rn sig svcs ev c).2 = true := by
  unfold Runner.Start
  split
  · exact h
  split
  · exact h
  split
  · exact startReg_RegInv rn sig svcs h
  dsimp only
  split
  · exact startReg_RegInv rn sig svcs h
  · exact startReg_RegInv rn sig svcs h

theorem RegInv_Halt (rn : Runner) (sig : Nat) (ids : List Nat)
    (ev : List (Option Err)) (c : Bool) (h : RegInv rn = true) :
    RegInv (Runner.Halt rn sig ids ev c).2 = true := by
  unfold Runner.Halt
  split
  · exact h
  split
  · exact haltMark_RegInv rn sig ids h
  dsimp only
  split
  · exact haltMark_RegInv rn sig ids h
  · exact haltMark_RegInv rn sig ids h

theorem RegInv_shutdownMark (rn : Runner) (sig : Nat) (h : RegInv rn = true) :
    RegInv (shutdownMark rn sig).2 = true := by
  unfold shutdownMark
  split
  · simpa [RegInv] using all_map_halting sig rn.services
  · exact h

theorem RegInv_ended (rn : Runner) (rsvc : RunnerService) (err : Option Err)
    (h : RegInv rn = true) : RegInv (Runner.ended rn rsvc err).runner = true := by
  cases hs : rsvc.stage <;>
    · simp only [Runner.ended, RunnerService.setReady, hs, RegInv, regErase] at h ⊢
      exact all_filter_of_all _ _ rn.services h

/-- C4: every Runner operation preserves the registry invariant (a record
is registered only in state Starting, Started or Halting); the record the
end path removes is left in state Ended; and runner.State reports the
registered record's state, or Halted for an unregistered descriptor. -/
theorem registry_invariant :
    (∀ (rn : Runner) (sig : Nat) (svcs : List (Option Service))
        (ev : List (Option Err)) (c : Bool),
        RegInv rn = true → RegInv (Runner.Start rn sig svcs ev c).2 = true)
      ∧ (∀ (rn : Runner) (sig : Nat) (ids : List Nat)
            (ev : List (Option Err)) (c : Bool),
          RegInv rn = true → RegInv (Runner.Halt rn sig ids ev c).2 = true)
      ∧ (∀ (rn : Runner) (sig : Nat) (ev : List (Option Err)) (c : Bool),
          RegInv rn = true → RegInv (Runner.Shutdown rn sig ev c).2 = true)
      ∧ (∀ (rn : Runner) (rsvc : RunnerService) (err : Option Err),
          RegInv rn = true → RegInv (Runner.ended rn rsvc err).runner = true)
      ∧ (∀ (rn : Runner) (rsvc : RunnerService) (err : Option Err),
          (Runner.ended rn rsvc err).rsvc.state = State.Ended)
      ∧ (∀ (rn : Runner) (svcId : Nat) (rs : RunnerService),
          regLookup svcId rn.services = some rs → Runner.State rn svcId = rs.state)
      ∧ (∀ (rn : Runner) (svcId : Nat),
          regLookup svcId rn.services = none → Runner.State rn svcId = State.Halted) := by
  refine ⟨RegInv_Start, RegInv_Halt, ?_, RegInv_ended, ?_, ?_, ?_⟩
  · intro rn sig ev c h
    rw [shutdown_runner_eq]
    exact RegInv_shutdownMark rn sig h
  · intro rn rsvc err
    cases hs : rsvc.stage <;>
      simp [Runner.ended, RunnerService.setReady, hs]
  · intro rn svcId rs h
    simp [Runner.State, h]
  · intro rn svcId h
    simp [Runner.State, h]

/-- Witness for C4 at the concrete runner rnW holding record rsW. -/
theorem registry_invariant_witness :
    (RegInv rnW = true ∧ RegInv (Runner.Start rnW 7 [some ⟨1, true⟩] [none] false).2 = true)
      ∧ (RegInv rnW = true ∧ RegInv (Runner.Halt rnW 8 [5] [none] false).2 = true)
      ∧ (RegInv rnW = true ∧ RegInv (Runner.Shutdown rnW 8 [none] false).2 = true)
      ∧ (RegInv rnW = true
          ∧ RegInv (Runner.ended rnW rsW (some (Err.runErr 2))).runner = true)
      ∧ (Runner.ended rnW rsW (some (Err.runErr 2))).rsvc.state = State.Ended
      ∧ (regLookup 5 rnW.services = some rsW ∧ Runner.State rnW 5 = rsW.state)
      ∧ (regLookup 6 rnW.services = none ∧ Runner.State rnW 6 = State.Halted) :=
  ⟨⟨by decide, registry_invariant.1 rnW 7 [some ⟨1, true⟩] [none] false (by decide)⟩,
   ⟨by decide, registry_invariant.2.1 rnW 8 [5] [none] false (by decide)⟩,
   ⟨by decide, registry_invariant.2.2.1 rnW 8 [none] false (by decide)⟩,
   ⟨by decide, registry_invariant.2.2.2.1 rnW rsW (some (Err.runErr 2)) (by decide)⟩,
   registry_invariant.2.2.2.2.1 rnW rsW (some (Err.runErr 2)),
   ⟨by decide, registry_invariant.2.2.2.2.2.1 rnW 5 rsW (by decide)⟩,
   ⟨by decide, registry_invariant.2.2.2.2.2.2 rnW 6 (by decide)⟩⟩

/-- A Start accumulator over rnW with empty slots, as at the head of the
registration loop. -/
def accW : StartAcc := { rn := rnW, slots := [], launched := [] }

/-- A Halt accumulator over rnW with empty slots, as at the head of the
marking loop. -/
def haccW : HaltAcc := { rn := rnW, slots := [], marked := [] }

/-- C6: a Start iteration over an already registered descriptor completes
that descriptor's slot with the service-already-running error and changes
nothing else; across any batch the existing record is neither replaced
nor modified; and the running service's state is unchanged by the whole
Start call. -/
theorem start_already_running :
    (∀ (sig : Nat) (acc : StartAcc) (s : Service) (rs : RunnerService),
        regLookup s.id acc.rn.services = some rs → s.hasRunnable = true →
        startStep sig acc (some s)
          = { acc with slots := acc.slots ++ [some Err.alreadyRunning] })
      ∧ (∀ (rn : Runner) (sig : Nat) (svcs : List (Option Service)) (D : Nat)
            (rs : RunnerService), regLookup D rn.services = some rs →
          regLookup D ((startReg rn sig svcs).rn.services) = some rs)
      ∧ (∀ (rn : Runner) (sig : Nat) (svcs : List (Option Service)) (D : Nat)
            (rs : RunnerService) (ev : List (Option Err)) (c : Bool),
          regLookup D rn.services = some rs →
          Runner.State (Runner.Start rn sig svcs ev c).2 D = rs.state) := by
  refine ⟨?_, startReg_lookup, ?_⟩
  · intro sig acc s rs hlk hr
    simp [startStep, hr, hlk]
  · intro rn sig svcs D rs ev c h
    have h2 := startReg_lookup rn sig svcs D rs h
    unfold Runner.Start
    split
    · simp [Runner.State, h]
    split
    · simp [Runner.State, h]
    split
    · simp [Runner.State, h2]
    dsimp only
    split
    · simp [Runner.State, h2]
    · simp [Runner.State, h2]

/-- Witness for C6 at the concrete runner rnW, whose descriptor 5 is
registered with record rsW. -/
theorem start_already_running_witness :
    (regLookup (Service.mk 5 true).id accW.rn.services = some rsW
        ∧ (Service.mk 5 true).hasRunnable = true
        ∧ startStep 7 accW (some (Service.mk 5 true))
            = { accW with slots := accW.slots ++ [some Err.alreadyRunning] })
      ∧ (regLookup 5 rnW.services = some rsW
          ∧ regLookup 5 ((startReg rnW 7 [some ⟨5, true⟩]).rn.services) = some rsW)
      ∧ (regLookup 5 rnW.services = some rsW
          ∧ Runner.State (Runner.Start rnW 7 [some ⟨5, true⟩] [] false).2 5 = rsW.state) :=
  ⟨⟨by decide, by decide,
    start_already_running.1 7 accW (Service.mk 5 true) rsW (by decide) (by decide)⟩,
   ⟨by decide, start_already_running.2.1 rnW 7 [some ⟨5, true⟩] 5 rsW (by decide)⟩,
   ⟨by decide, start_already_running.2.2 rnW 7 [some ⟨5, true⟩] 5 rsW [] false (by decide)⟩⟩

/-- C7: a nonempty batch Start or Halt that completes via its Signal
returns nil iff every per-service slot completed with nil; when some slot
completed with an error the result is the aggregate of exactly the
non-nil slot errors, so no sibling error is dropped. -/
theorem batch_aggregate_iff :
    (∀ (rn : Runner) (sig : Nat) (svcs : List (Option Service)) (ev : List (Option Err)),
        svcs ≠ [] → rn.state = RunnerState.RunnerEnabled →
        (((Runner.Start rn sig svcs ev false).1 = none
            ↔ ∀ x ∈ (startReg rn sig svcs).slots ++ ev, x = none)
          ∧ (signalErrs ((startReg rn sig svcs).slots ++ ev) ≠ [] →
              (Runner.Start rn sig svcs ev false).1
                = some (GoErr.aggregate (signalErrs ((startReg rn sig svcs).slots ++ ev))))))
      ∧ (∀ (rn : Runner) (sig : Nat) (ids : List Nat) (ev : List (Option Err)),
          ids ≠ [] →
          (((Runner.Halt rn sig ids ev false).1 = none
              ↔ ∀ x ∈ (haltMark rn sig ids).slots ++ ev, x = none)
            ∧ (signalErrs ((haltMark rn sig ids).slots ++ ev) ≠ [] →
                (Runner.Halt rn sig ids ev false).1
                  = some (GoErr.aggregate (signalErrs ((haltMark rn sig ids).slots ++ ev)))))) := by
  constructor
  · intro rn sig svcs ev hne hEn
    have hres : (Runner.Start rn sig svcs ev false).1
        = (if signalErrs ((startReg rn sig svcs).slots ++ ev) = [] then none
           else some (GoErr.aggregate (signalErrs ((startReg rn sig svcs).slots ++ ev)))) := by
      unfold Runner.Start
      rw [if_neg (by simpa [List.length_eq_zero] using hne), if_neg (by simp [hEn])]
      dsimp only
      rw [if_neg (by simp)]
      split <;> simp_all
    constructor
    · rw [hres]
      by_cases he : signalErrs ((startReg rn sig svcs).slots ++ ev) = []
      · rw [if_pos he]
        constructor
        · intro _
          exact (signalErrs_eq_nil _).mp he
        · intro _
          rfl
      · rw [if_neg he]
        constructor
        · intro hc
          exact absurd hc (by simp)
        · intro hall
          exact absurd ((signalErrs_eq_nil _).mpr hall) he
    · intro hne2
      rw [hres, if_neg hne2]
  · intro rn sig ids ev hne
    have hres : (Runner.Halt rn sig ids ev false).1
        = (if signalErrs ((haltMark rn sig ids).slots ++ ev) = [] then none
           else some (GoErr.aggregate (signalErrs ((haltMark rn sig ids).slots ++ ev)))) := by
      unfold Runner.Halt
      rw [if_neg (by simpa [List.length_eq_zero] using hne)]
      dsimp only
      rw [if_neg (by simp)]
      split <;> simp_all
    constructor
    · rw [hres]
      by_cases he : signalErrs ((haltMark rn sig ids).slots ++ ev) = []
      · rw [if_pos he]
        constructor
        · intro _
          exact (signalErrs_eq_nil _).mp he
        · intro _
          rfl
      · rw [if_neg he]
        constructor
        · intro hc
          exact absurd hc (by simp)
        · intro hall
          exact absurd ((signalErrs_eq_nil _).mpr hall) he
    · intro hne2
      rw [hres, if_neg hne2]

/-- Witness for C7: a two-service Start on a fresh runner in which the
second worker fails, and a two-descriptor Halt on rnW in which the ending
service reports an error while its sibling is unregistered. -/
theorem batch_aggregate_iff_witness :
    (([some (Service.mk 1 true), some (Service.mk 2 true)] : List (Option Service)) ≠ []
        ∧ NewRunner.state = RunnerState.RunnerEnabled
        ∧ ¬ (Runner.Start NewRunner 3 [some ⟨1, true⟩, some ⟨2, true⟩]
              [none, some (Err.runErr 7)] false).1 = none
        ∧ (Runner.Start NewRunner 3 [some ⟨1, true⟩, some ⟨2, true⟩]
              [none, some (Err.runErr 7)] false).1
            = some (GoErr.aggregate [Err.runErr 7]))
      ∧ (([5, 6] : List Nat) ≠ []
          ∧ (Runner.Halt rnW 8 [5, 6] [some (Err.runErr 3)] false).1
              = some (GoErr.aggregate [Err.runErr 3])) := by
  have h1 := (batch_aggregate_iff.1 NewRunner 3 [some ⟨1, true⟩, some ⟨2, true⟩]
    [none, some (Err.runErr 7)] (by decide) (by decide))
  have h2 := (batch_aggregate_iff.2 rnW 8 [5, 6] [some (Err.runErr 3)] (by decide))
  refine ⟨⟨by decide, by decide, ?_, ?_⟩, by decide, ?_⟩
  · intro hcontra
    have := h1.1.mp hcontra (some (Err.runErr 7)) (by decide)
    cases this
  · exact h1.2 (by decide)
  · exact h2.2 (by decide)

/-- C8: a Halt iteration over an unregistered descriptor completes its
slot with nil and changes nothing else, and a Halt call naming a single
unregistered descriptor returns nil and leaves the Runner unchanged. -/
theorem halt_unregistered_nil :
    (∀ (sig : Nat) (acc : HaltAcc) (D : Nat), regLookup D acc.rn.services = none →
        haltStep sig acc D = { acc with slots := acc.slots ++ [none] })
      ∧ (∀ (rn : Runner) (sig : Nat) (D : Nat), regLookup D rn.services = none →
          Runner.Halt rn sig [D] [] false = (none, rn)) := by
  constructor
  · intro sig acc D h
    simp [haltStep, h]
  · intro rn sig D h
    unfold Runner.Halt
    rw [if_neg (by simp)]
    dsimp only
    simp [haltMark, haltStep, h, signalErrs]

/-- Witness for C8 at rnW and the unregistered descriptor 6. -/
theorem halt_unregistered_nil_witness :
    (regLookup 6 haccW.rn.services = none
        ∧ haltStep 8 haccW 6 = { haccW with slots := haccW.slots ++ [none] })
      ∧ (regLookup 6 rnW.services = none
          ∧ Runner.Halt rnW 8 [6] [] false = (none, rnW)) :=
  ⟨⟨by decide, halt_unregistered_nil.1 8 haccW 6 (by decide)⟩,
   ⟨by decide, halt_unregistered_nil.2 rnW 8 6 (by decide)⟩⟩

/-- C9: when the outer cancellation branch is taken, Start and Halt return
the cancellation error and leave the Runner exactly as the registration
phase left it; in particular a cancelled Halt removes no registered
service from the registry (the worker is not reclaimed). -/
theorem cancelled_frame :
    (∀ (rn : Runner) (sig : Nat) (svcs : List (Option Service)) (ev : List (Option Err)),
        svcs ≠ [] → rn.state = RunnerState.RunnerEnabled →
        Runner.Start rn sig svcs ev true
          = (some GoErr.ctxCanceled, (startReg rn sig svcs).rn))
      ∧ (∀ (rn : Runner) (sig : Nat) (ids : List Nat) (ev : List (Option Err)),
          ids ≠ [] →
          Runner.Halt rn sig ids ev true
            = (some GoErr.ctxCanceled, (haltMark rn sig ids).rn))
      ∧ (∀ (rn : Runner) (sig : Nat) (ids : List Nat) (D : Nat),
          regLookup D rn.services ≠ none →
          regLookup D ((haltMark rn sig ids).rn.services) ≠ none) := by
  refine ⟨?_, ?_, haltMark_mem⟩
  · intro rn sig svcs ev hne hEn
    unfold Runner.Start
    rw [if_neg (by simpa [List.length_eq_zero] using hne), if_neg (by simp [hEn])]
    dsimp only
    rw [if_pos rfl]
  · intro rn sig ids ev hne
    unfold Runner.Halt
    rw [if_neg (by simpa [List.length_eq_zero] using hne)]
    dsimp only
    rw [if_pos rfl]

/-- Witness for C9 at rnW: a cancelled Start of a fresh descriptor and a
cancelled Halt of the registered descriptor 5. -/
theorem cancelled_frame_witness :
    (([some (Service.mk 1 true)] : List (Option Service)) ≠ []
        ∧ rnW.state = RunnerState.RunnerEnabled
        ∧ Runner.Start rnW 7 [some ⟨1, true⟩] [] true
            = (some GoErr.ctxCanceled, (startReg rnW 7 [some ⟨1, true⟩]).rn))
      ∧ (([5] : List Nat) ≠ []
          ∧ Runner.Halt rnW 8 [5] [] true
              = (some GoErr.ctxCanceled, (haltMark rnW 8 [5]).rn))
      ∧ (regLookup 5 rnW.services ≠ none
          ∧ regLookup 5 ((haltMark rnW 8 [5]).rn.services) ≠ none) :=
  ⟨⟨by decide, by decide, cancelled_frame.1 rnW 7 [some ⟨1, true⟩] [] (by decide) (by decide)⟩,
   ⟨by decide, cancelled_frame.2.1 rnW 8 [5] [] (by decide)⟩,
   ⟨by decide, cancelled_frame.2.2 rnW 8 [5] 5 (by decide)⟩⟩

end GoService
